import Mathlib

/-!
# The inference worker of Hardik7301/Fight-Detection

A shallow embedding of `server/src/frame.hpp` and `server/src/worker.cpp`:
the frame record, the three loop bodies of the worker (`recv_in_thread`,
the loop of `main`, `send_in_thread`) and the start-up and teardown of `main`.

Bytes are natural numbers, a buffer is the list of the bytes that lie inside
it, machine `int`s are integers reduced to 32 bits where a conversion
happens.  The model follows the control flow of the code: a write that falls
outside a buffer is entered in the log of writes with its extent, stores
nothing in the buffer, and execution goes on.  A turn of the inference loop
that throws or cannot go on ends the process: it has no successor state.
-/

namespace Worker

/-! ## frame.hpp -/

/-- The constant `SEQ_BUF_LEN` of frame.hpp. -/
def SEQ_BUF_LEN : Nat := 100

/-- The constant `MSG_BUF_LEN` of frame.hpp. -/
def MSG_BUF_LEN : Nat := 76800

/-- The constant `DET_BUF_LEN` of frame.hpp. -/
def DET_BUF_LEN : Nat := 25600

/-- The constant `JSON_BUF_LEN` of frame.hpp. -/
def JSON_BUF_LEN : Nat := MSG_BUF_LEN * 2

/-- The record `Frame` of frame.hpp.  A pointer field is modelled by the bytes
of the block it points to: a frame is the only owner of its three blocks. -/
structure Frame where
  seq_len : Int
  msg_len : Int
  det_len : Int
  seq_buf : List Nat
  msg_buf : List Nat
  det_buf : List Nat
deriving DecidableEq, Repr

/-- Reduction of an integer to the range of a C `int` (two's complement, 32
bits). -/
def wrap32 (x : Int) : Int :=
  if (x % 4294967296).toNat < 2147483648 then ((x % 4294967296).toNat : Int)
  else ((x % 4294967296).toNat : Int) - 4294967296

/-- Conversion of an unsigned size to a C `int`. -/
def toInt32 (n : Nat) : Int := wrap32 (n : Int)

/-- Modelled from the spec: the class `Frame_pool` is declared in frame.hpp,
its implementation is not in the sources.  The three memory pools are built
with the same number of units and a frame takes one block of each, so the
pool is the number of frames it can still hand out.  `unit_num` is the
capacity fixed at construction. -/
structure Frame_pool where
  unit_num : Nat
  free : Nat
deriving DecidableEq, Repr

/-- Modelled from the spec: the constructor `Frame_pool(int unit_num)`. -/
def Frame_pool.create (unit_num : Nat) : Frame_pool :=
  { unit_num := unit_num, free := unit_num }

/-- The frame value `alloc_frame` hands back: lengths 0, nothing written yet. -/
def blankFrame : Frame :=
  { seq_len := 0, msg_len := 0, det_len := 0, seq_buf := [], msg_buf := [], det_buf := [] }

/-- Modelled from the spec: `Frame alloc_frame(void)` takes one block of each
kind and returns a frame with the three lengths 0; it fails when the pool is
exhausted and then leaves the pool as it was.  The declared result type is
`Frame`, so a frame value comes back in both cases; the boolean tells whether
its blocks were drawn from the pool. -/
def Frame_pool.alloc_frame (p : Frame_pool) : Frame × Bool × Frame_pool :=
  if p.free = 0 then (blankFrame, false, p)
  else (blankFrame, true, { p with free := p.free - 1 })

/-- Modelled from the spec: `free_frame` releases the blocks of the frame into
the pool; `drew` tells whether the frame holds blocks of the pool. -/
def Frame_pool.free_frame (p : Frame_pool) (drew : Bool) : Frame_pool :=
  if drew then { p with free := p.free + 1 } else p

/-! ## Memory writes -/

/-- The buffers the worker writes to. -/
inductive Buf where
  | json_buf
  | det_buf
  | msg_buf
deriving DecidableEq, Repr

/-- The capacity of each buffer, in bytes. -/
def Buf.cap : Buf → Nat
  | .json_buf => JSON_BUF_LEN
  | .det_buf => DET_BUF_LEN
  | .msg_buf => MSG_BUF_LEN

/-- One write of the worker: `len` bytes starting at index `off` of `buf`. -/
structure Write where
  buf : Buf
  off : Int
  len : Int
deriving DecidableEq, Repr

/-- The write stays inside its buffer. -/
def Write.inside (w : Write) : Bool :=
  decide (0 ≤ w.off) && decide (0 ≤ w.len) && decide (w.off + w.len ≤ (w.buf.cap : Int))

/-- Contents of a buffer of `cap` bytes after `bytes` are written at index
`off`: bytes never written read as 0, bytes that fall outside are not stored. -/
def store (cap : Nat) (old : List Nat) (off : Nat) (bytes : List Nat) : List Nat :=
  ((old.take off ++ List.replicate (off - old.length) 0) ++ bytes
    ++ old.drop (off + bytes.length)).take cap

/-- The `n` bytes read from the start of a block: the bytes the model holds
for it and, where it holds none, the byte `stale` gives for the index. -/
def load (stale : Nat → Nat) (buf : List Nat) (n : Nat) : List Nat :=
  (List.range n).map (fun i => buf.getD i (stale i))

/-! ## libc and the transport -/

/-- The C predicate `isspace` on a byte. -/
def isspace (c : Nat) : Bool := c == 32 || (decide (9 ≤ c) && decide (c ≤ 13))

/-- The C predicate `isdigit` on a byte. -/
def isdigit (c : Nat) : Bool := decide (48 ≤ c) && decide (c ≤ 57)

/-- The digit loop of `atoi`: it stops at the first byte that is no digit, the
terminator included. -/
def atoi_digits (acc : Int) : List Nat → Int
  | [] => acc
  | c :: cs => if isdigit c then atoi_digits (acc * 10 + ((c : Int) - 48)) cs else acc

/-- The C function `atoi` on the bytes of a string: white space, an optional
sign, decimal digits; the value is converted to `int`. -/
def atoi (str : List Nat) : Int :=
  match str.dropWhile isspace with
  | [] => 0
  | c :: cs =>
    if c = 45 then wrap32 (- atoi_digits 0 cs)
    else if c = 43 then wrap32 (atoi_digits 0 cs)
    else wrap32 (atoi_digits 0 (c :: cs))

/-- The value of a string of decimal digits, most significant first. -/
def digits_value (ds : List Nat) : Nat := ds.foldl (fun a d => a * 10 + d) 0

/-- The bytes of a decimal numeral: the bytes of the sign (none, `-` or `+`)
and the ASCII digits `ds`, most significant first, leading zeros allowed. -/
def numeral (sign ds : List Nat) : List Nat := sign ++ ds.map (fun d => d + 48)

/-- The integer a numeral stands for. -/
def numeral_value (sign ds : List Nat) : Int :=
  if sign = [45] then - (digits_value ds : Int) else (digits_value ds : Int)

/-- What `zmq_recv (sock, buf, len, ZMQ_NOBLOCK)` returns: -1 when no message
is waiting, else the size of the message, also when the message is longer
than `len` and was truncated; the size is reported as an `int` and saturates. -/
def zmq_recv_len : Option (List Nat) → Int
  | none => -1
  | some m => (min m.length 2147483647 : Nat)

/-- What `zmq_recv` leaves in a buffer of `len` bytes. -/
def zmq_recv_buf (len : Nat) : Option (List Nat) → List Nat
  | none => []
  | some m => m.take len

/-! ## The collaborators of the worker -/

/-- The collaborators that are not part of the worker: the frame codec
(`json_to_frame`, `frame_to_json`, declared in frame.hpp), the image codec and
the detector behind `DetectorInterface`.  `Img` stands for `cv::Mat`, `Det`
for the state of the detector, the threshold is fixed at start-up.  `stale`
gives the byte the memory holds at an index of the message block of a frame
where the model holds none: the worker does not decide it. -/
structure Env where
  Img : Type
  Det : Type
  stale : Frame → Nat → Nat
  json_to_frame : List Nat → Frame → Frame
  frame_to_json : Frame → List Nat
  imdecode : List Nat → Img
  imencode : Img → List Nat
  detect : Det → Img → Det
  det_to_json : Det → Int → Det × List Nat
  draw : Det → Img → Det × Img

/-- A call the worker makes to the frame pool, the frame codec, the detector
or the push socket. -/
inductive Call where
  | alloc_frame
  | json_to_frame
  | detect
  | det_to_json (seq : Int)
  | draw
  | frame_to_json
  | zmq_send
  | free_frame
deriving DecidableEq, Repr

/-! ## worker.cpp: the shared state -/

/-- An envelope accepted by ingress: its arrival number and its bytes. -/
structure Envelope where
  arrival : Nat
  payload : List Nat
deriving DecidableEq, Repr

/-- An element of a queue: the `Frame` value, and as bookkeeping of the model
whether `alloc_frame` drew its blocks from the pool and the envelope it was
decoded from. -/
structure Tagged where
  frame : Frame
  drew : Bool
  origin : Envelope
deriving DecidableEq, Repr

/-- Modelled from the spec: the class `SharedQueue` of share_queue.h, which is
not in the sources.  It is a FIFO; the front of the queue is the head of the
list, `size () > 0`, `front ()` and `pop_front ()` are the match on the head. -/
abbrev SharedQueue (α : Type) : Type := List α

/-- Modelled from the spec: `push_back` puts an element at the back of the
queue. -/
abbrev SharedQueue.push_back {α : Type} (q : SharedQueue α) (x : α) : SharedQueue α :=
  q ++ [x]

/-- The globals of worker.cpp, the detector of `main`, and the bookkeeping of
the model: envelopes accepted, frames sent, bytes sent, writes and calls
made so far, and which of the three contexts are still in their loop. -/
structure State (E : Env) where
  unprocessed_frame_queue : SharedQueue Tagged
  processed_frame_queue : SharedQueue Tagged
  frame_pool : Frame_pool
  exit_flag : Bool
  detector : E.Det
  accepted : List Envelope
  sent : List Tagged
  wire : List (List Nat)
  writes : List Write
  calls : List Call
  recv_running : Bool
  send_running : Bool
  torn_down : Bool

/-- The state right after `main` has created the two threads: the pool was
built with `unit_num` units (5000 in `main`), both queues are empty, nothing
was sent, the flag is not set. -/
def State.init (E : Env) (unit_num : Nat) (d : E.Det) : State E :=
  { unprocessed_frame_queue := [], processed_frame_queue := [],
    frame_pool := Frame_pool.create unit_num, exit_flag := false, detector := d,
    accepted := [], sent := [], wire := [], writes := [], calls := [],
    recv_running := true, send_running := true, torn_down := false }

/-! ## worker.cpp: the three loop bodies -/

/-- The body of the loop of `recv_in_thread` (lines 43 to 55); `incoming` is
the message waiting on the pull socket, if any. -/
def recv_body (E : Env) (incoming : Option (List Nat)) (s : State E) : State E :=
  let recv_json_len := zmq_recv_len incoming
  let json_buf := zmq_recv_buf JSON_BUF_LEN incoming
  if recv_json_len > 0 then
    let (frame, drew, pool) := s.frame_pool.alloc_frame
    let json_buf := store JSON_BUF_LEN json_buf recv_json_len.toNat [0]
    let frame := E.json_to_frame json_buf frame
    let env : Envelope := { arrival := s.accepted.length, payload := incoming.getD [] }
    { s with
      frame_pool := pool
      unprocessed_frame_queue :=
        s.unprocessed_frame_queue.push_back { frame := frame, drew := drew, origin := env }
      accepted := s.accepted ++ [env]
      writes := s.writes ++ [{ buf := .json_buf, off := recv_json_len, len := 1 }]
      calls := s.calls ++ [.alloc_frame, .json_to_frame] }
  else s

/-- Lines 158 to 194 of `main`: what the inference loop does to the frame it
popped.  Returns the frame, the detector, and the writes and calls made, and
`none` when the turn ends the process: with a negative `msg_len` the
constructor of `raw_vec` (line 164) throws `std::length_error`, which nothing
catches, and with a negative `det_len` the `memcpy` of line 182 is asked for
more bytes than the address space has.  The case `Int.ofNat k` of a length is
the case that it is not negative, with `k` its value. -/
def process_frame (E : Env) (d : E.Det) (frame : Frame) :
    Option (Frame × E.Det × List Write × List Call) :=
  let frame_seq := atoi frame.seq_buf
  match frame.msg_len with
  | Int.negSucc _ => none
  | Int.ofNat frame_len =>
    let raw_vec := load (E.stale frame) frame.msg_buf frame_len
    let raw_mat := E.imdecode raw_vec
    let d := E.detect d raw_mat
    let (d, det_json) := E.det_to_json d frame_seq
    match toInt32 det_json.length with
    | Int.negSucc _ => none
    | Int.ofNat det_len =>
      let det_buf := store DET_BUF_LEN frame.det_buf 0 (det_json.take det_len)
      let det_buf := store DET_BUF_LEN det_buf det_len [0]
      let (d, raw_mat) := E.draw d raw_mat
      let res_vec := E.imencode raw_mat
      let msg_len := toInt32 res_vec.length
      let msg_buf := store MSG_BUF_LEN frame.msg_buf 0 res_vec
      some
        ({ frame with
            det_len := Int.ofNat det_len, det_buf := det_buf, msg_len := msg_len, msg_buf := msg_buf },
         d,
         [{ buf := .det_buf, off := 0, len := Int.ofNat det_len },
          { buf := .det_buf, off := Int.ofNat det_len, len := 1 },
          { buf := .msg_buf, off := 0, len := res_vec.length }],
         [.detect, .det_to_json frame_seq, .draw])

/-- The body of the loop of `main` (lines 154 to 198); `none` when the turn
ends the process, after the frame was popped and before anything is pushed. -/
def main_body (E : Env) (s : State E) : Option (State E) :=
  match s.unprocessed_frame_queue with
  | [] => some s
  | t :: rest =>
    match process_frame E s.detector t.frame with
    | none => none
    | some (frame, d, ws, cs) =>
      some
        { s with
          unprocessed_frame_queue := rest
          processed_frame_queue := s.processed_frame_queue.push_back { t with frame := frame }
          detector := d
          writes := s.writes ++ ws
          calls := s.calls ++ cs }

/-- The body of the loop of `send_in_thread` (lines 66 to 78). -/
def send_body (E : Env) (s : State E) : State E :=
  match s.processed_frame_queue with
  | [] => s
  | t :: rest =>
    let json := E.frame_to_json t.frame
    { s with
      processed_frame_queue := rest
      sent := s.sent ++ [t]
      wire := s.wire ++ [json]
      frame_pool := s.frame_pool.free_frame t.drew
      calls := s.calls ++ [.frame_to_json, .zmq_send, .free_frame] }

/-! ## worker.cpp: the start of `main` -/

/-- What `main` does before its loop, as far as the outside can see it. -/
inductive Action where
  | read_argv (i : Nat)
  | print_usage
  | install_signal
  | find_args
  | print_config
  | zmq_ctx_new
  | zmq_socket
  | zmq_connect
  | new_frame_pool (unit_num : Nat)
  | pthread_create
  | pthread_detach
  | new_detector
deriving DecidableEq, Repr

/-- Lines 84 to 139 of `main`: the actions taken in order, and the exit status
when `main` returns before its loop (`none` when it goes on to the loop).  The
two assertions on `zmq_connect` are taken to hold. -/
def main_start (argc : Int) : List Action × Option Int :=
  if argc < 2 then
    ([.read_argv 0, .print_usage], some 0)
  else
    ([.install_signal, .read_argv 1, .read_argv 2, .read_argv 3, .find_args, .print_config,
      .zmq_ctx_new, .zmq_socket, .zmq_connect, .zmq_socket, .zmq_connect,
      .new_frame_pool 5000, .pthread_create, .pthread_create,
      .pthread_detach, .pthread_detach, .new_detector], none)

/-- The action creates a socket, the frame pool or a thread. -/
def Action.creates : Action → Bool
  | .zmq_ctx_new => true
  | .zmq_socket => true
  | .new_frame_pool _ => true
  | .pthread_create => true
  | _ => false

/-- The action reads one of `argv[1]`, `argv[2]`, `argv[3]` although `argc`
arguments were supplied and the index is not below `argc`. -/
def Action.reads_beyond (argc : Int) : Action → Bool
  | .read_argv i => decide (1 ≤ i) && decide (argc ≤ (i : Int))
  | _ => false

/-! ## worker.cpp: the loops, the signal and the teardown -/

/-- The handler `sig_handler`. -/
def sig_handler {E : Env} (s : State E) : State E := { s with exit_flag := true }

/-- One turn of `while(!exit_flag)` in `recv_in_thread`. -/
def recv_iter (E : Env) (incoming : Option (List Nat)) (s : State E) : State E :=
  if s.exit_flag then { s with recv_running := false } else recv_body E incoming s

/-- One turn of `while(!exit_flag)` in `send_in_thread`. -/
def send_iter (E : Env) (s : State E) : State E :=
  if s.exit_flag then { s with send_running := false } else send_body E s

/-- Lines 201 to 204 of `main`: the pool is deleted, the sockets and the
transport context are closed.  Nothing is joined and no queue is touched. -/
def teardown {E : Env} (s : State E) : State E := { s with torn_down := true }

/-- One turn of `while(!exit_flag)` in `main`; when the flag is set the loop
is left and the teardown runs. -/
def main_iter (E : Env) (s : State E) : Option (State E) :=
  if s.exit_flag then some (teardown s) else main_body E s

/-- The states the worker reaches from the initial state by any interleaving
of the turns of its three loops and of the signal.  A thread takes turns while
it is in its loop; when `main` has torn down it returns and the process ends,
and so it does when a turn of `main` has no successor state. -/
inductive Reachable (E : Env) (unit_num : Nat) (d : E.Det) : State E → Prop where
  | init : Reachable E unit_num d (State.init E unit_num d)
  | recv (s : State E) (incoming : Option (List Nat)) :
      Reachable E unit_num d s → s.recv_running = true → s.torn_down = false →
      Reachable E unit_num d (recv_iter E incoming s)
  | infer (s s' : State E) :
      Reachable E unit_num d s → s.torn_down = false → main_iter E s = some s' →
      Reachable E unit_num d s'
  | send (s : State E) :
      Reachable E unit_num d s → s.send_running = true → s.torn_down = false →
      Reachable E unit_num d (send_iter E s)
  | signal (s : State E) :
      Reachable E unit_num d s → Reachable E unit_num d (sig_handler s)

/-! ## Order of the frames through the pipeline -/

/-- The frames sent, then the processed queue, then the unprocessed queue:
every frame the worker has accepted, oldest first. -/
def State.pipeline {E : Env} (s : State E) : List Tagged :=
  s.sent ++ s.processed_frame_queue ++ s.unprocessed_frame_queue

/-- The pipeline holds the accepted envelopes in arrival order, and the
arrival numbers count from 0. -/
def OrderInv {E : Env} (s : State E) : Prop :=
  s.pipeline.map Tagged.origin = s.accepted ∧
  s.accepted.map Envelope.arrival = List.range s.accepted.length

/-! ## Accounting of the frame pool -/

/-- The number of frames of a queue whose blocks were drawn from the pool. -/
def drawn (q : List Tagged) : Nat := q.countP (fun t => t.drew)

/-- The frames in flight.  A context holds a frame only inside a loop body and
the loop bodies are the steps, so in a state of the model every frame in
flight is in one of the two queues. -/
def State.in_flight {E : Env} (s : State E) : Nat :=
  s.unprocessed_frame_queue.length + s.processed_frame_queue.length

/-- The pool keeps its capacity, and its free count together with the frames
in flight that were drawn from it make up the capacity. -/
def PoolInv {E : Env} (unit_num : Nat) (s : State E) : Prop :=
  s.frame_pool.unit_num = unit_num ∧
  s.frame_pool.free + drawn s.processed_frame_queue + drawn s.unprocessed_frame_queue = unit_num

/-! ## Concrete runs -/

/-- A small instance of the collaborators, to run the model on concrete
inputs: the decoder copies the bytes of the envelope up to the terminator into
the sequence buffer, the encoder gives the sequence string back, the detector
counts its calls and answers `det_json`, the image encoder answers `jpeg`. -/
@[reducible]
def sampleEnv (det_json jpeg : List Nat) : Env where
  Img := List Nat
  Det := Nat
  stale := fun _ _ => 0
  json_to_frame := fun buf f =>
    { f with
      seq_len := toInt32 (buf.takeWhile (fun c => c != 0)).length
      seq_buf := store SEQ_BUF_LEN f.seq_buf 0 (buf.takeWhile (fun c => c != 0) ++ [0]) }
  frame_to_json := fun f => f.seq_buf.take f.seq_len.toNat
  imdecode := fun v => v
  imencode := fun _ => jpeg
  detect := fun d _ => d + 1
  det_to_json := fun d _ => (d, det_json)
  draw := fun d img => (d, img)

/-- The sample collaborators with a two-byte detection result and a
three-byte image. -/
@[reducible]
def smallEnv : Env := sampleEnv [123, 125] [255, 216, 217]

/-- The bytes `42`. -/
def bytes42 : List Nat := [52, 50]

/-- The bytes `not-json`. -/
def notJson : List Nat := [110, 111, 116, 45, 106, 115, 111, 110]

/-- The state after `k` envelopes arrived in a row while the other two
contexts took no turn. -/
@[irreducible]
def flood (E : Env) (unit_num : Nat) (d : E.Det) (payload : List Nat) (k : Nat) : State E :=
  (recv_iter E (some payload))^[k] (State.init E unit_num d)

/-- The run in which one envelope `42` has arrived, pool of 5000. -/
def oneArrived : State smallEnv := flood smallEnv 5000 0 bytes42 1

/-- The run in which one envelope `42` has arrived, pool of 1. -/
def fullOfOne : State smallEnv := flood smallEnv 1 0 bytes42 1

/-- The run in which two envelopes `42` have arrived in a row, pool of 1. -/
def twoInOne : State smallEnv := flood smallEnv 1 0 bytes42 2

/-! ## One turn of the inference loop -/

/-- The three length bounds of a frame. -/
def Frame.bounded (f : Frame) : Prop :=
  (0 ≤ f.seq_len ∧ f.seq_len < (SEQ_BUF_LEN : Int)) ∧
  (0 ≤ f.msg_len ∧ f.msg_len < (MSG_BUF_LEN : Int)) ∧
  (0 ≤ f.det_len ∧ f.det_len < (DET_BUF_LEN : Int))

instance (f : Frame) : Decidable f.bounded := by
  unfold Frame.bounded
  infer_instance

/-- The image the inference loop decodes from the first `len` bytes of the
message block of the frame (lines 159 to 167). -/
def raw_mat_of (E : Env) (f : Frame) (len : Nat) : E.Img :=
  E.imdecode (load (E.stale f) f.msg_buf len)

/-- The sequence number the inference loop reads from the frame (line 158). -/
def frame_seq_of (f : Frame) : Int := atoi f.seq_buf

/-- What `det_to_json (seq)` returns when it is called after `detect` on the
image of the frame: the detector and the string. -/
def det_reply (E : Env) (d : E.Det) (f : Frame) (len : Nat) (seq : Int) : E.Det × List Nat :=
  E.det_to_json (E.detect d (raw_mat_of E f len)) seq

/-- What `draw` returns when it is called after `det_to_json (seq)`: the
detector and the image with the overlay. -/
def drawn_mat (E : Env) (d : E.Det) (f : Frame) (len : Nat) (seq : Int) : E.Det × E.Img :=
  E.draw (det_reply E d f len seq).1 (raw_mat_of E f len)

/-- The bytes of the image encoded again after `draw`. -/
def encoded (E : Env) (d : E.Det) (f : Frame) (len : Nat) (seq : Int) : List Nat :=
  E.imencode (drawn_mat E d f len seq).2

/-- The string `det_to_json` returns in this turn of the loop (line 180), for
a frame that holds `len` bytes of message. -/
def det_json_of (E : Env) (d : E.Det) (f : Frame) (len : Nat) : List Nat :=
  (det_reply E d f len (frame_seq_of f)).2

/-- The bytes the image encoder returns in this turn of the loop (line 190). -/
def res_vec_of (E : Env) (d : E.Det) (f : Frame) (len : Nat) : List Nat :=
  encoded E d f len (frame_seq_of f)

/-- The outcome of a turn of the inference loop that runs to its end, for a
frame with `msg_len = len` and a detection string of `det_len` bytes. -/
def turn_result (E : Env) (d : E.Det) (f : Frame) (len det_len : Nat) :
    Frame × E.Det × List Write × List Call :=
  ({ f with
      det_len := Int.ofNat det_len
      det_buf := store DET_BUF_LEN
        (store DET_BUF_LEN f.det_buf 0 ((det_json_of E d f len).take det_len)) det_len [0]
      msg_len := toInt32 (res_vec_of E d f len).length
      msg_buf := store MSG_BUF_LEN f.msg_buf 0 (res_vec_of E d f len) },
   (drawn_mat E d f len (frame_seq_of f)).1,
   [{ buf := .det_buf, off := 0, len := Int.ofNat det_len },
    { buf := .det_buf, off := Int.ofNat det_len, len := 1 },
    { buf := .msg_buf, off := 0, len := (res_vec_of E d f len).length }],
   [.detect, .det_to_json (frame_seq_of f), .draw])

/-- The sample collaborators whose detector answers 25600 bytes and whose
image encoder answers 76800 bytes. -/
@[reducible]
def bigEnv : Env := sampleEnv (List.replicate 25600 97) (List.replicate 76800 255)

/-- The sample collaborators whose image encoder answers 76801 bytes. -/
@[reducible]
def longEnv : Env := sampleEnv [123, 125] (List.replicate 76801 255)

/-- The frame the sample decoder makes of the envelope `42`. -/
def frame42 : Frame :=
  { seq_len := 2, msg_len := 0, det_len := 0, seq_buf := [52, 50, 0], msg_buf := [], det_buf := [] }

/-- The queue element made of the first envelope `42`. -/
def tagged42 : Tagged :=
  { frame := frame42, drew := true, origin := { arrival := 0, payload := bytes42 } }

/-- The state after the envelope `42` arrived, sample collaborators. -/
def arrived42 : State smallEnv :=
  recv_body smallEnv (some bytes42) (State.init smallEnv 5000 0)

/-- The run in which the envelope `42` arrives, the signal is delivered, and
`main` takes its next turn, which is the teardown. -/
def interrupted : State smallEnv :=
  teardown (sig_handler (recv_iter smallEnv (some bytes42) (State.init smallEnv 5000 0)))

/-- The run in which the envelope `42` arrives and is processed. -/
def inferred : State smallEnv :=
  (main_iter smallEnv (recv_iter smallEnv (some bytes42) (State.init smallEnv 5000 0))).get
    (by decide)

/-- The run in which the envelope `42` arrives, is processed and is sent. -/
def delivered : State smallEnv := send_iter smallEnv inferred

/-- The sample collaborators with a decoder that leaves `msg_len = -1`. -/
@[reducible]
def negEnv : Env :=
  { smallEnv with
    json_to_frame := fun buf f => { smallEnv.json_to_frame buf f with msg_len := -1 } }

/-- The queue element the decoder of `negEnv` makes of the first envelope `42`. -/
def taggedNeg : Tagged :=
  { tagged42 with frame := { frame42 with msg_len := -1 } }

/-! # Theorems -/

/-! ## Basic facts about the loop bodies -/

theorem recv_body_nonpos (E : Env) (incoming : Option (List Nat)) (s : State E)
    (h : zmq_recv_len incoming ≤ 0) : recv_body E incoming s = s := by
  unfold recv_body
  simp only
  rw [if_neg (not_lt.mpr h)]

theorem recv_body_pos (E : Env) (incoming : Option (List Nat)) (s : State E)
    (h : 0 < zmq_recv_len incoming) :
    recv_body E incoming s =
      { s with
        frame_pool := s.frame_pool.alloc_frame.2.2
        unprocessed_frame_queue := s.unprocessed_frame_queue ++
          [{ frame := E.json_to_frame
                (store JSON_BUF_LEN (zmq_recv_buf JSON_BUF_LEN incoming)
                  (zmq_recv_len incoming).toNat [0]) s.frame_pool.alloc_frame.1
             drew := s.frame_pool.alloc_frame.2.1
             origin := { arrival := s.accepted.length, payload := incoming.getD [] } }]
        accepted := s.accepted ++ [{ arrival := s.accepted.length, payload := incoming.getD [] }]
        writes := s.writes ++ [{ buf := .json_buf, off := zmq_recv_len incoming, len := 1 }]
        calls := s.calls ++ [.alloc_frame, .json_to_frame] } := by
  unfold recv_body
  simp only
  rw [if_pos h]

theorem main_body_nil (E : Env) (s : State E) (h : s.unprocessed_frame_queue = []) :
    main_body E s = some s := by
  unfold main_body
  rw [h]

theorem main_body_cons (E : Env) (s : State E) (t : Tagged) (rest : List Tagged)
    (r : Frame × E.Det × List Write × List Call)
    (h : s.unprocessed_frame_queue = t :: rest)
    (hp : process_frame E s.detector t.frame = some r) :
    main_body E s = some
      { s with
        unprocessed_frame_queue := rest
        processed_frame_queue := s.processed_frame_queue ++
          [{ frame := r.1, drew := t.drew, origin := t.origin }]
        detector := r.2.1
        writes := s.writes ++ r.2.2.1
        calls := s.calls ++ r.2.2.2 } := by
  unfold main_body
  rw [h]
  simp only [hp]

theorem main_body_abort (E : Env) (s : State E) (t : Tagged) (rest : List Tagged)
    (h : s.unprocessed_frame_queue = t :: rest)
    (hp : process_frame E s.detector t.frame = none) :
    main_body E s = none := by
  unfold main_body
  rw [h]
  simp only [hp]

theorem main_body_some (E : Env) (s s' : State E) (h : main_body E s = some s') :
    (s.unprocessed_frame_queue = [] ∧ s' = s) ∨
      ∃ (t : Tagged) (rest : List Tagged) (r : Frame × E.Det × List Write × List Call),
        s.unprocessed_frame_queue = t :: rest ∧
        process_frame E s.detector t.frame = some r ∧
        s' = { s with
          unprocessed_frame_queue := rest
          processed_frame_queue := s.processed_frame_queue ++
            [{ frame := r.1, drew := t.drew, origin := t.origin }]
          detector := r.2.1
          writes := s.writes ++ r.2.2.1
          calls := s.calls ++ r.2.2.2 } := by
  cases hq : s.unprocessed_frame_queue with
  | nil =>
    rw [main_body_nil E s hq] at h
    exact Or.inl ⟨rfl, (Option.some.inj h).symm⟩
  | cons t rest =>
    cases hp : process_frame E s.detector t.frame with
    | none =>
      rw [main_body_abort E s t rest hq hp] at h
      cases h
    | some r =>
      rw [main_body_cons E s t rest r hq hp] at h
      exact Or.inr ⟨t, rest, r, rfl, hp, (Option.some.inj h).symm⟩

theorem main_iter_some (E : Env) (s s' : State E) (h : main_iter E s = some s') :
    (s.exit_flag = true ∧ s' = teardown s) ∨ (s.exit_flag = false ∧ main_body E s = some s') := by
  unfold main_iter at h
  cases hf : s.exit_flag with
  | true =>
    rw [hf] at h
    exact Or.inl ⟨rfl, (Option.some.inj h).symm⟩
  | false =>
    rw [hf] at h
    exact Or.inr ⟨rfl, h⟩

theorem send_body_nil (E : Env) (s : State E) (h : s.processed_frame_queue = []) :
    send_body E s = s := by
  unfold send_body
  rw [h]

theorem send_body_cons (E : Env) (s : State E) (t : Tagged) (rest : List Tagged)
    (h : s.processed_frame_queue = t :: rest) :
    send_body E s =
      { s with
        processed_frame_queue := rest
        sent := s.sent ++ [t]
        wire := s.wire ++ [E.frame_to_json t.frame]
        frame_pool := s.frame_pool.free_frame t.drew
        calls := s.calls ++ [.frame_to_json, .zmq_send, .free_frame] } := by
  unfold send_body
  rw [h]

theorem recv_body_flags (E : Env) (incoming : Option (List Nat)) (s : State E) :
    (recv_body E incoming s).exit_flag = s.exit_flag ∧
      (recv_body E incoming s).torn_down = s.torn_down := by
  by_cases hp : 0 < zmq_recv_len incoming
  · rw [recv_body_pos E incoming s hp]
    exact ⟨rfl, rfl⟩
  · rw [recv_body_nonpos E incoming s (not_lt.mp hp)]
    exact ⟨rfl, rfl⟩

theorem main_body_flags (E : Env) (s s' : State E) (hstep : main_body E s = some s') :
    s'.exit_flag = s.exit_flag ∧ s'.torn_down = s.torn_down := by
  rcases main_body_some E s s' hstep with ⟨_, rfl⟩ | ⟨t, rest, r, _, _, rfl⟩
  · exact ⟨rfl, rfl⟩
  · exact ⟨rfl, rfl⟩

theorem send_body_flags (E : Env) (s : State E) :
    (send_body E s).exit_flag = s.exit_flag ∧ (send_body E s).torn_down = s.torn_down := by
  cases hq : s.processed_frame_queue with
  | nil => rw [send_body_nil E s hq]; exact ⟨rfl, rfl⟩
  | cons t rest => rw [send_body_cons E s t rest hq]; exact ⟨rfl, rfl⟩

theorem orderInv_init (E : Env) (n : Nat) (d : E.Det) : OrderInv (State.init E n d) := by
  simp [OrderInv, State.pipeline, State.init]

theorem orderInv_recv_body (E : Env) (incoming : Option (List Nat)) (s : State E)
    (h : OrderInv s) : OrderInv (recv_body E incoming s) := by
  by_cases hp : 0 < zmq_recv_len incoming
  · rw [recv_body_pos E incoming s hp]
    obtain ⟨h1, h2⟩ := h
    refine ⟨?_, ?_⟩
    · simp only [State.pipeline] at h1 ⊢
      rw [← List.append_assoc, List.map_append, h1]
      rfl
    · simp only [List.map_append, List.length_append, List.length_singleton, List.map_cons,
        List.map_nil, h2, List.range_succ]
  · rw [recv_body_nonpos E incoming s (not_lt.mp hp)]
    exact h

theorem orderInv_main_body (E : Env) (s s' : State E) (hstep : main_body E s = some s')
    (h : OrderInv s) : OrderInv s' := by
  rcases main_body_some E s s' hstep with ⟨_, rfl⟩ | ⟨t, rest, r, hq, _, rfl⟩
  · exact h
  · obtain ⟨h1, h2⟩ := h
    refine ⟨?_, h2⟩
    simp only [State.pipeline, hq] at h1 ⊢
    rw [← h1]
    simp

theorem orderInv_send_body (E : Env) (s : State E) (h : OrderInv s) :
    OrderInv (send_body E s) := by
  cases hq : s.processed_frame_queue with
  | nil => rw [send_body_nil E s hq]; exact h
  | cons t rest =>
    rw [send_body_cons E s t rest hq]
    obtain ⟨h1, h2⟩ := h
    refine ⟨?_, h2⟩
    simp only [State.pipeline, hq] at h1 ⊢
    rw [← h1]
    simp

theorem orderInv_reachable (E : Env) (n : Nat) (d : E.Det) (s : State E)
    (h : Reachable E n d s) : OrderInv s := by
  induction h with
  | init => exact orderInv_init E n d
  | recv s incoming _ _ _ ih =>
    unfold recv_iter
    split
    · exact ih
    · exact orderInv_recv_body E incoming s ih
  | infer s s' _ _ hstep ih =>
    rcases main_iter_some E s s' hstep with ⟨_, rfl⟩ | ⟨_, hb⟩
    · exact ih
    · exact orderInv_main_body E s s' hb ih
  | send s _ _ _ ih =>
    unfold send_iter
    split
    · exact ih
    · exact orderInv_send_body E s ih
  | signal s _ ih => exact ih

theorem sent_origins_initial {E : Env} (s : State E) (h : OrderInv s) :
    s.sent.map Tagged.origin <+: s.accepted := by
  rw [← h.1]
  simp only [State.pipeline, List.map_append, List.append_assoc]
  exact List.prefix_append _ _

theorem accepted_pairwise {E : Env} (s : State E) (h : OrderInv s) :
    s.accepted.Pairwise (fun a b => a.arrival < b.arrival) := by
  have := List.pairwise_lt_range s.accepted.length
  rw [← h.2, List.pairwise_map] at this
  exact this

/-- Claim C1: in every reachable state the frames sent so far, followed by the
processed queue, followed by the unprocessed queue, are the envelopes ingress
accepted, in arrival order; hence no envelope is sent twice, and of two sent
envelopes the one that arrived first was sent first. -/
theorem pipeline_keeps_arrival_order (E : Env) (unit_num : Nat) (d : E.Det) (s : State E)
    (h : Reachable E unit_num d s) :
    (s.sent ++ s.processed_frame_queue ++ s.unprocessed_frame_queue).map Tagged.origin
        = s.accepted ∧
      s.accepted.map Envelope.arrival = List.range s.accepted.length ∧
      (s.sent.map Tagged.origin).Nodup ∧
      s.sent.Pairwise (fun a b => a.origin.arrival < b.origin.arrival) := by
  have hinv := orderInv_reachable E unit_num d s h
  have hpw := accepted_pairwise s hinv
  have hpre := (sent_origins_initial s hinv).sublist
  have hsent : (s.sent.map Tagged.origin).Pairwise (fun a b => a.arrival < b.arrival) :=
    hpw.sublist hpre
  refine ⟨hinv.1, hinv.2, ?_, ?_⟩
  · exact hsent.imp (fun hab => by
      intro heq
      rw [heq] at hab
      exact lt_irrefl _ hab)
  · rw [List.pairwise_map] at hsent
    exact hsent

theorem drawn_append (q r : List Tagged) : drawn (q ++ r) = drawn q + drawn r := by
  simp [drawn, List.countP_append]

theorem drawn_cons (t : Tagged) (q : List Tagged) :
    drawn (t :: q) = drawn q + (if t.drew then 1 else 0) := by
  simp [drawn, List.countP_cons]

theorem drawn_le_length (q : List Tagged) : drawn q ≤ q.length := by
  simp [drawn, List.countP_le_length]

theorem drawn_eq_length (q : List Tagged) (h : ∀ t ∈ q, t.drew = true) :
    drawn q = q.length := by
  unfold drawn
  rw [List.countP_eq_length]
  exact h

theorem alloc_frame_free_zero (p : Frame_pool) (h : p.free = 0) :
    p.alloc_frame = (blankFrame, false, p) := by
  unfold Frame_pool.alloc_frame
  rw [if_pos h]

theorem alloc_frame_free_pos (p : Frame_pool) (h : p.free ≠ 0) :
    p.alloc_frame = (blankFrame, true, { p with free := p.free - 1 }) := by
  unfold Frame_pool.alloc_frame
  rw [if_neg h]

theorem poolInv_init (E : Env) (n : Nat) (d : E.Det) : PoolInv n (State.init E n d) := by
  simp [PoolInv, State.init, Frame_pool.create, drawn]

theorem poolInv_recv_body (E : Env) (n : Nat) (incoming : Option (List Nat)) (s : State E)
    (h : PoolInv n s) : PoolInv n (recv_body E incoming s) := by
  by_cases hp : 0 < zmq_recv_len incoming
  · rw [recv_body_pos E incoming s hp]
    obtain ⟨h1, h2⟩ := h
    by_cases hf : s.frame_pool.free = 0
    · rw [alloc_frame_free_zero _ hf]
      refine ⟨h1, ?_⟩
      simp only [drawn_append, drawn_cons]
      simp only [drawn, List.countP_nil] at h2 ⊢
      simpa using h2
    · rw [alloc_frame_free_pos _ hf]
      refine ⟨h1, ?_⟩
      simp only [drawn_append, drawn_cons]
      simp only [drawn, List.countP_nil] at h2 ⊢
      simp only [if_true, zero_add]
      omega
  · rw [recv_body_nonpos E incoming s (not_lt.mp hp)]
    exact h

theorem poolInv_main_body (E : Env) (n : Nat) (s s' : State E)
    (hstep : main_body E s = some s') (h : PoolInv n s) : PoolInv n s' := by
  rcases main_body_some E s s' hstep with ⟨_, rfl⟩ | ⟨t, rest, r, hq, _, rfl⟩
  · exact h
  · obtain ⟨h1, h2⟩ := h
    refine ⟨h1, ?_⟩
    rw [hq, drawn_cons] at h2
    simp only [drawn_append, drawn_cons]
    simp only [drawn, List.countP_nil] at h2 ⊢
    omega

theorem poolInv_send_body (E : Env) (n : Nat) (s : State E) (h : PoolInv n s) :
    PoolInv n (send_body E s) := by
  cases hq : s.processed_frame_queue with
  | nil => rw [send_body_nil E s hq]; exact h
  | cons t rest =>
    rw [send_body_cons E s t rest hq]
    obtain ⟨h1, h2⟩ := h
    rw [hq, drawn_cons] at h2
    unfold Frame_pool.free_frame
    cases hd : t.drew with
    | false =>
      rw [hd] at h2
      exact ⟨h1, by simpa using h2⟩
    | true =>
      rw [hd] at h2
      refine ⟨h1, ?_⟩
      simp only [if_true] at h2 ⊢
      omega

theorem poolInv_reachable (E : Env) (n : Nat) (d : E.Det) (s : State E)
    (h : Reachable E n d s) : PoolInv n s := by
  induction h with
  | init => exact poolInv_init E n d
  | recv s incoming _ _ _ ih =>
    unfold recv_iter
    split
    · exact ih
    · exact poolInv_recv_body E n incoming s ih
  | infer s s' _ _ hstep ih =>
    rcases main_iter_some E s s' hstep with ⟨_, rfl⟩ | ⟨_, hb⟩
    · exact ih
    · exact poolInv_main_body E n s s' hb ih
  | send s _ _ _ ih =>
    unfold send_iter
    split
    · exact ih
    · exact poolInv_send_body E n s ih
  | signal s _ ih => exact ih

theorem zmq_recv_len_pos (m : List Nat) (h : 0 < m.length) : 0 < zmq_recv_len (some m) := by
  show (0 : Int) < ((min m.length 2147483647 : Nat) : Int)
  have : 0 < min m.length 2147483647 := by omega
  exact_mod_cast this

theorem zmq_recv_len_pos_iff (incoming : Option (List Nat)) :
    0 < zmq_recv_len incoming ↔ ∃ m, incoming = some m ∧ 0 < m.length := by
  cases incoming with
  | none => simp [zmq_recv_len]
  | some m =>
    constructor
    · intro h
      refine ⟨m, rfl, ?_⟩
      change (0 : Int) < ((min m.length 2147483647 : Nat) : Int) at h
      have : 0 < min m.length 2147483647 := by exact_mod_cast h
      omega
    · rintro ⟨m', hm, hl⟩
      cases hm
      exact zmq_recv_len_pos m hl

theorem flood_spec (E : Env) (n : Nat) (d : E.Det) (payload : List Nat)
    (hp : 0 < payload.length) (k : Nat) :
    Reachable E n d (flood E n d payload k) ∧
      (flood E n d payload k).exit_flag = false ∧
      (flood E n d payload k).recv_running = true ∧
      (flood E n d payload k).torn_down = false ∧
      (flood E n d payload k).unprocessed_frame_queue.length = k ∧
      (flood E n d payload k).processed_frame_queue = [] ∧
      (flood E n d payload k).frame_pool.unit_num = n ∧
      (flood E n d payload k).frame_pool.free = n - k := by
  induction k with
  | zero =>
    have h0 : flood E n d payload 0 = State.init E n d := by
      unfold flood
      rfl
    rw [h0]
    exact ⟨Reachable.init, rfl, rfl, rfl, rfl, rfl, rfl, rfl⟩
  | succ k ih =>
    obtain ⟨hr, he, hrun, htd, hlen, hproc, hcap, hfree⟩ := ih
    have hstep : flood E n d payload (k + 1)
        = recv_body E (some payload) (flood E n d payload k) := by
      have h1 : flood E n d payload (k + 1)
          = recv_iter E (some payload) (flood E n d payload k) := by
        unfold flood
        exact Function.iterate_succ_apply' _ _ _
      rw [h1]
      unfold recv_iter
      rw [if_neg (by simp [he])]
    have hreach : Reachable E n d (flood E n d payload (k + 1)) := by
      have := Reachable.recv _ (some payload) hr hrun htd
      unfold recv_iter at this
      rw [if_neg (by simp [he])] at this
      rw [hstep]
      exact this
    refine ⟨hreach, ?_⟩
    rw [hstep, recv_body_pos E _ _ (zmq_recv_len_pos payload hp)]
    refine ⟨he, hrun, htd, by simp [hlen], hproc, ?_, ?_⟩
    · by_cases hf : (flood E n d payload k).frame_pool.free = 0
      · rw [alloc_frame_free_zero _ hf]; exact hcap
      · rw [alloc_frame_free_pos _ hf]; exact hcap
    · by_cases hf : (flood E n d payload k).frame_pool.free = 0
      · rw [alloc_frame_free_zero _ hf]
        show (flood E n d payload k).frame_pool.free = n - (k + 1)
        omega
      · rw [alloc_frame_free_pos _ hf]
        show (flood E n d payload k).frame_pool.free - 1 = n - (k + 1)
        omega

theorem flood_succ (E : Env) (n : Nat) (d : E.Det) (payload : List Nat)
    (hp : 0 < payload.length) (k : Nat) :
    flood E n d payload (k + 1) = recv_body E (some payload) (flood E n d payload k) := by
  have h1 : flood E n d payload (k + 1)
      = recv_iter E (some payload) (flood E n d payload k) := by
    unfold flood
    exact Function.iterate_succ_apply' _ _ _
  rw [h1]
  unfold recv_iter
  rw [if_neg (by simp [(flood_spec E n d payload hp k).2.1])]

/-! ## The claims on the pool and on ingress -/

theorem count_mismatch {E : Env} (s : State E)
    (h1 : s.unprocessed_frame_queue.length = 5001) (h2 : s.processed_frame_queue = [])
    (h3 : s.frame_pool.free = 5000 - 5001) :
    ((5000 : Nat) : Int) - s.frame_pool.free ≠ (s.in_flight : Int) := by
  unfold State.in_flight
  rw [h1, h2, h3]
  decide

/-- Claim C2, as stated, fails: after 5001 envelopes arrived in a row the pool
of 5000 is empty, so capacity minus free count is 5000, and 5001 frames are in
flight. -/
theorem pool_count_counterexample :
    Reachable smallEnv 5000 0 (flood smallEnv 5000 0 bytes42 5001) ∧
      ((5000 : Nat) : Int) - (flood smallEnv 5000 0 bytes42 5001).frame_pool.free
        ≠ ((flood smallEnv 5000 0 bytes42 5001).in_flight : Int) := by
  have h := flood_spec smallEnv 5000 0 bytes42 (by decide) 5001
  exact ⟨h.1, count_mismatch _ h.2.2.2.2.1 h.2.2.2.2.2.1 h.2.2.2.2.2.2.2⟩

/-- Claim C2 (amended): in every reachable state the capacity minus the free
count is the number of frames in flight that were drawn from the pool; it is
the number of all frames in flight when every queued frame was drawn from the
pool; and when both queues are empty the free count is the capacity. -/
theorem pool_conservation (E : Env) (unit_num : Nat) (d : E.Det) (s : State E)
    (h : Reachable E unit_num d s) :
    s.frame_pool.unit_num = unit_num ∧
      (unit_num : Int) - s.frame_pool.free
        = drawn s.unprocessed_frame_queue + drawn s.processed_frame_queue ∧
      ((∀ t ∈ s.unprocessed_frame_queue ++ s.processed_frame_queue, t.drew = true) →
        (unit_num : Int) - s.frame_pool.free = s.in_flight) ∧
      (s.unprocessed_frame_queue = [] → s.processed_frame_queue = [] →
        s.frame_pool.free = unit_num) := by
  obtain ⟨h1, h2⟩ := poolInv_reachable E unit_num d s h
  refine ⟨h1, by omega, ?_, ?_⟩
  · intro hall
    have hu := drawn_eq_length s.unprocessed_frame_queue
      (fun t ht => hall t (List.mem_append_left _ ht))
    have hp := drawn_eq_length s.processed_frame_queue
      (fun t ht => hall t (List.mem_append_right _ ht))
    unfold State.in_flight
    omega
  · intro hu hp
    rw [hu, hp] at h2
    simpa [drawn] using h2

theorem pool_conservation_witness :
    Reachable smallEnv 5000 0 oneArrived ∧
      ((5000 : Nat) : Int) - oneArrived.frame_pool.free
        = drawn oneArrived.unprocessed_frame_queue + drawn oneArrived.processed_frame_queue :=
  ⟨(flood_spec smallEnv 5000 0 bytes42 (by decide) 1).1,
   (pool_conservation smallEnv 5000 0 oneArrived
      (flood_spec smallEnv 5000 0 bytes42 (by decide) 1).1).2.1⟩

/-- Claim C5, as stated, fails: with a pool of one frame and one frame in
flight, a further envelope is pushed onto the unprocessed queue all the same,
and two frames are then in flight. -/
theorem backpressure_counterexample :
    Reachable smallEnv 1 0 fullOfOne ∧ fullOfOne.in_flight = 1 ∧
      (recv_body smallEnv (some bytes42) fullOfOne).unprocessed_frame_queue
        ≠ fullOfOne.unprocessed_frame_queue ∧
      Reachable smallEnv 1 0 twoInOne ∧ 1 < twoInOne.in_flight := by
  have h1 := flood_spec smallEnv 1 0 bytes42 (by decide) 1
  have h2 := flood_spec smallEnv 1 0 bytes42 (by decide) 2
  have hs := flood_succ smallEnv 1 0 bytes42 (by decide) 1
  obtain ⟨hr1, _, _, _, hlen1, hproc1, _, _⟩ := h1
  obtain ⟨hr2, _, _, _, hlen2, hproc2, _, _⟩ := h2
  refine ⟨hr1, ?_, ?_, hr2, ?_⟩
  · unfold State.in_flight fullOfOne
    rw [hlen1, hproc1]
    rfl
  · intro heq
    have := congrArg List.length heq
    unfold fullOfOne at this
    rw [← hs, hlen2, hlen1] at this
    omega
  · unfold State.in_flight twoInOne
    rw [hlen2, hproc2]
    decide

/-- Claim C5 (amended): with a pool of capacity N, in every reachable state at
most N frames drawn from the pool are in flight; when a positive-length
envelope arrives while N such frames are in flight, `alloc_frame` fails and
leaves the pool as it was, and ingress, which does not test the result,
pushes the frame it got back onto the unprocessed queue. -/
theorem backpressure_bound (E : Env) (unit_num : Nat) (d : E.Det) (s : State E)
    (h : Reachable E unit_num d s) :
    drawn s.unprocessed_frame_queue + drawn s.processed_frame_queue ≤ unit_num ∧
      (drawn s.unprocessed_frame_queue + drawn s.processed_frame_queue = unit_num →
        ∀ incoming : Option (List Nat), 0 < zmq_recv_len incoming →
          (recv_body E incoming s).frame_pool = s.frame_pool ∧
          (recv_body E incoming s).processed_frame_queue = s.processed_frame_queue ∧
          ∃ t : Tagged, t.drew = false ∧
            (recv_body E incoming s).unprocessed_frame_queue
              = s.unprocessed_frame_queue ++ [t]) := by
  obtain ⟨_, h2⟩ := poolInv_reachable E unit_num d s h
  refine ⟨by omega, ?_⟩
  intro hfull incoming hp
  have hf : s.frame_pool.free = 0 := by omega
  rw [recv_body_pos E incoming s hp, alloc_frame_free_zero _ hf]
  exact ⟨rfl, rfl, _, rfl, rfl⟩

theorem backpressure_bound_witness :
    Reachable smallEnv 1 0 fullOfOne ∧
      drawn fullOfOne.unprocessed_frame_queue + drawn fullOfOne.processed_frame_queue ≤ 1 :=
  ⟨(flood_spec smallEnv 1 0 bytes42 (by decide) 1).1,
   (backpressure_bound smallEnv 1 0 fullOfOne
      (flood_spec smallEnv 1 0 bytes42 (by decide) 1).1).1⟩

/-- Claim C6: an iteration of the ingress loop whose receive returns a value
that is not positive leaves the whole state as it was (no frame allocated, no
decode, queues and pool unchanged); an iteration whose receive returns a
positive value calls `alloc_frame` once and `json_to_frame` once and pushes
exactly one frame, the decoded one, onto the back of the unprocessed queue. -/
theorem empty_receive_ignored (E : Env) (incoming : Option (List Nat)) (s : State E) :
    (zmq_recv_len incoming ≤ 0 → recv_body E incoming s = s) ∧
      (0 < zmq_recv_len incoming →
        (recv_body E incoming s).calls = s.calls ++ [.alloc_frame, .json_to_frame] ∧
        (recv_body E incoming s).frame_pool = s.frame_pool.alloc_frame.2.2 ∧
        (recv_body E incoming s).processed_frame_queue = s.processed_frame_queue ∧
        ∃ t : Tagged,
          t.frame = E.json_to_frame
            (store JSON_BUF_LEN (zmq_recv_buf JSON_BUF_LEN incoming)
              (zmq_recv_len incoming).toNat [0]) s.frame_pool.alloc_frame.1 ∧
          (recv_body E incoming s).unprocessed_frame_queue
            = s.unprocessed_frame_queue ++ [t]) := by
  refine ⟨recv_body_nonpos E incoming s, ?_⟩
  intro hp
  rw [recv_body_pos E incoming s hp]
  exact ⟨rfl, rfl, rfl, _, rfl, rfl⟩

theorem empty_receive_ignored_witness :
    recv_body smallEnv none oneArrived = oneArrived ∧
      recv_body smallEnv (some []) oneArrived = oneArrived ∧
      (recv_body smallEnv (some bytes42) oneArrived).calls
        = oneArrived.calls ++ [.alloc_frame, .json_to_frame] :=
  ⟨(empty_receive_ignored smallEnv none oneArrived).1 (by decide),
   (empty_receive_ignored smallEnv (some []) oneArrived).1 (by decide),
   ((empty_receive_ignored smallEnv (some bytes42) oneArrived).2 (by decide)).1⟩

/-- Claim C4, as stated, fails: on the bytes `not-json` the ingress step
pushes a frame onto the unprocessed queue, takes a frame out of the pool and
gives none back, and after one turn of inference and one of egress an
envelope has been sent for it. -/
theorem malformed_counterexample :
    (recv_body smallEnv (some notJson) (State.init smallEnv 5000 0)).unprocessed_frame_queue.length
        = 1 ∧
      (recv_body smallEnv (some notJson) (State.init smallEnv 5000 0)).frame_pool.free = 4999 ∧
      (recv_body smallEnv (some notJson) (State.init smallEnv 5000 0)).calls
        = [.alloc_frame, .json_to_frame] ∧
      (main_iter smallEnv (recv_iter smallEnv (some notJson) (State.init smallEnv 5000 0))).map
          (fun s => (send_iter smallEnv s).sent.map (fun t => t.origin.payload))
        = some [notJson] := by
  refine ⟨by decide, by decide, by decide, by decide⟩

/-- Claim C4 (amended): for every received payload of positive length, well
formed or not and whatever the decoder does with it, the ingress step calls
`alloc_frame` and `json_to_frame` and nothing else, reports nothing, gives no
frame back to the pool and pushes the frame onto the back of the unprocessed
queue; the pool is left as `alloc_frame` left it, with one free frame less
when it was not exhausted and unchanged when it was.  When the flag is not set
and both queues were empty, and the next turn of the inference loop has a
successor state, the turn of egress after it sends an envelope for that
payload. -/
theorem malformed_is_forwarded (E : Env) (s : State E) (payload : List Nat)
    (hp : 0 < payload.length) :
    (recv_body E (some payload) s).calls = s.calls ++ [.alloc_frame, .json_to_frame] ∧
      (recv_body E (some payload) s).frame_pool = s.frame_pool.alloc_frame.2.2 ∧
      (0 < s.frame_pool.free →
        (recv_body E (some payload) s).frame_pool.free + 1 = s.frame_pool.free) ∧
      (s.frame_pool.free = 0 → (recv_body E (some payload) s).frame_pool = s.frame_pool) ∧
      (∃ t : Tagged, t.origin.payload = payload ∧
        (recv_body E (some payload) s).unprocessed_frame_queue
          = s.unprocessed_frame_queue ++ [t]) ∧
      (s.exit_flag = false → s.unprocessed_frame_queue = [] → s.processed_frame_queue = [] →
        ∀ s2 : State E, main_iter E (recv_iter E (some payload) s) = some s2 →
          ∃ t : Tagged, t.origin.payload = payload ∧
            (send_iter E s2).sent = s.sent ++ [t] ∧
            (send_iter E s2).wire = s.wire ++ [E.frame_to_json t.frame]) := by
  have hpos := zmq_recv_len_pos payload hp
  refine ⟨?_, ?_, ?_, ?_, ?_, ?_⟩
  · rw [recv_body_pos E _ s hpos]
  · rw [recv_body_pos E _ s hpos]
  · intro hf
    rw [recv_body_pos E _ s hpos, alloc_frame_free_pos _ (by omega)]
    show s.frame_pool.free - 1 + 1 = s.frame_pool.free
    omega
  · intro hf
    rw [recv_body_pos E _ s hpos, alloc_frame_free_zero _ hf]
  · rw [recv_body_pos E _ s hpos]
    exact ⟨_, rfl, rfl⟩
  · intro he hu hq s2 hstep
    have hr : recv_iter E (some payload) s = recv_body E (some payload) s := by
      unfold recv_iter
      rw [if_neg (by simp [he])]
    rw [hr] at hstep
    have he1 : (recv_body E (some payload) s).exit_flag = false := by
      rw [(recv_body_flags E _ s).1]
      exact he
    rcases main_iter_some E _ s2 hstep with ⟨hflag, _⟩ | ⟨_, hb⟩
    · rw [he1] at hflag
      cases hflag
    · rw [recv_body_pos E _ s hpos] at hb
      rcases main_body_some E _ s2 hb with ⟨hnil, _⟩ | ⟨t, rest, r, hcons, _, hs2⟩
      · rw [hu] at hnil
        cases hnil
      · rw [hu] at hcons
        obtain ⟨rfl, rfl⟩ := List.cons.inj hcons
        have he2 : s2.exit_flag = false := by
          rw [hs2]
          exact he
        have hp2 : s2.processed_frame_queue
            = [{ frame := r.1, drew := s.frame_pool.alloc_frame.2.1,
                 origin := { arrival := s.accepted.length, payload := payload } }] := by
          rw [hs2]
          show s.processed_frame_queue ++ _ = _
          rw [hq]
          rfl
        have hsend : send_iter E s2 = send_body E s2 := by
          unfold send_iter
          rw [if_neg (by simp [he2])]
        rw [hsend, send_body_cons E s2 _ [] hp2]
        refine ⟨{ frame := r.1, drew := s.frame_pool.alloc_frame.2.1,
                  origin := { arrival := s.accepted.length, payload := payload } },
          rfl, ?_, ?_⟩
        · show s2.sent ++ _ = _
          rw [hs2]
        · show s2.wire ++ _ = _
          rw [hs2]

theorem malformed_is_forwarded_witness :
    0 < notJson.length ∧
      (recv_body smallEnv (some notJson) (State.init smallEnv 5000 0)).calls
        = (State.init smallEnv 5000 0).calls ++ [.alloc_frame, .json_to_frame] ∧
      (recv_body smallEnv (some notJson) (State.init smallEnv 5000 0)).frame_pool.free + 1
        = (State.init smallEnv 5000 0).frame_pool.free :=
  ⟨by decide,
   (malformed_is_forwarded smallEnv (State.init smallEnv 5000 0) notJson (by decide)).1,
   (malformed_is_forwarded smallEnv (State.init smallEnv 5000 0) notJson (by decide)).2.2.1
     (by decide)⟩

/-! ## The terminator written by ingress -/

theorem recv_body_writes (E : Env) (s : State E) (m : List Nat) (hp : 0 < m.length) :
    (recv_body E (some m) s).writes
      = s.writes ++ [{ buf := .json_buf, off := ((min m.length 2147483647 : Nat) : Int), len := 1 }] := by
  rw [recv_body_pos E _ s (zmq_recv_len_pos m hp)]
  rfl

theorem terminator_of_length (E : Env) (s : State E) (m : List Nat) (k : Nat)
    (hk : m.length = k) (hpos : 0 < k) (hmax : k ≤ 2147483647) :
    zmq_recv_len (some m) = (k : Int) ∧
      (recv_body E (some m) s).writes
        = s.writes ++ [{ buf := .json_buf, off := (k : Int), len := 1 }] := by
  have hm : min m.length 2147483647 = k := by omega
  refine ⟨?_, ?_⟩
  · show ((min m.length 2147483647 : Nat) : Int) = (k : Int)
    rw [hm]
  · rw [recv_body_writes E s m (by omega), hm]

/-- Claim C10, evaluated on the code: for a message that exactly fills
`json_buf` (153600 bytes) the receive returns 153600 and `recv_in_thread`
writes the terminator at index 153600, one past the end of the buffer; for a
message of 200000 bytes, truncated by the transport, the index is 200000. -/
theorem terminator_write_outside :
    zmq_recv_len (some (List.replicate 153600 120)) = 153600 ∧
      (recv_body smallEnv (some (List.replicate 153600 120)) (State.init smallEnv 5000 0)).writes
        = [{ buf := .json_buf, off := 153600, len := 1 }] ∧
      Write.inside { buf := .json_buf, off := 153600, len := 1 } = false ∧
      ¬ ((153600 : Int) < (JSON_BUF_LEN : Int)) ∧
      (recv_body smallEnv (some (List.replicate 200000 120)) (State.init smallEnv 5000 0)).writes
        = [{ buf := .json_buf, off := 200000, len := 1 }] ∧
      Write.inside { buf := .json_buf, off := 200000, len := 1 } = false := by
  have h1 := terminator_of_length smallEnv (State.init smallEnv 5000 0)
    (List.replicate 153600 120) 153600 (List.length_replicate _ _) (by decide) (by decide)
  have h2 := terminator_of_length smallEnv (State.init smallEnv 5000 0)
    (List.replicate 200000 120) 200000 (List.length_replicate _ _) (by decide) (by decide)
  exact ⟨h1.1, h1.2, by decide, by decide, h2.2, by decide⟩

/-! ## `atoi` reads back a decimal string -/

theorem wrap32_small (x : Int) (h1 : -2147483648 ≤ x) (h2 : x < 2147483648) :
    wrap32 x = x := by
  unfold wrap32
  split <;> omega

theorem toInt32_small (n : Nat) (h : n < 2147483648) : toInt32 n = (n : Int) := by
  unfold toInt32
  exact wrap32_small _ (by omega) (by omega)

theorem atoi_digits_map (l : List Nat) (hl : ∀ x ∈ l, x < 10) (acc : Int) (tail : List Nat) :
    atoi_digits acc (l.map (fun x => x + 48) ++ 0 :: tail)
      = l.foldl (fun (a : Int) (x : Nat) => a * 10 + (x : Int)) acc := by
  induction l generalizing acc with
  | nil => simp [atoi_digits, isdigit]
  | cons x xs ih =>
    have hx : x < 10 := hl x (List.mem_cons_self _ _)
    have hd : isdigit (x + 48) = true := by
      simp only [isdigit, Bool.and_eq_true, decide_eq_true_eq]
      omega
    have e : atoi_digits acc ((x + 48) :: (xs.map (fun x => x + 48) ++ 0 :: tail))
        = atoi_digits (acc * 10 + (((x + 48 : Nat) : Int) - 48))
            (xs.map (fun x => x + 48) ++ 0 :: tail) := by
      rw [atoi_digits, if_pos hd]
    simp only [List.map_cons, List.cons_append, List.foldl_cons]
    rw [e, ih (fun y hy => hl y (List.mem_cons_of_mem _ hy))]
    congr 1
    push_cast
    ring

theorem foldl_digits_cast (ds : List Nat) (acc : Nat) :
    ds.foldl (fun (a : Int) (x : Nat) => a * 10 + (x : Int)) (acc : Int)
      = ((ds.foldl (fun a d => a * 10 + d) acc : Nat) : Int) := by
  induction ds generalizing acc with
  | nil => rfl
  | cons x xs ih =>
    simp only [List.foldl_cons]
    rw [← ih]
    congr 1

theorem atoi_digits_value (ds : List Nat) (hlt : ∀ d ∈ ds, d < 10) (tail : List Nat) :
    atoi_digits 0 (ds.map (fun d => d + 48) ++ 0 :: tail) = (digits_value ds : Int) := by
  rw [atoi_digits_map ds hlt 0 tail]
  exact foldl_digits_cast ds 0

theorem atoi_numeral (sign ds tail : List Nat)
    (hsign : sign = [] ∨ sign = [45] ∨ sign = [43]) (hne : ds ≠ [])
    (hlt : ∀ d ∈ ds, d < 10)
    (h1 : -2147483648 ≤ numeral_value sign ds) (h2 : numeral_value sign ds < 2147483648) :
    atoi (numeral sign ds ++ 0 :: tail) = numeral_value sign ds := by
  have hval := atoi_digits_value ds hlt tail
  unfold numeral_value at h1 h2 ⊢
  unfold numeral atoi
  rcases hsign with rfl | rfl | rfl
  · obtain ⟨x, xs, rfl⟩ := List.exists_cons_of_ne_nil hne
    have hx : x < 10 := hlt x (List.mem_cons_self _ _)
    have hsp : isspace (x + 48) = false := by
      simp only [isspace, Bool.or_eq_false_iff, Bool.and_eq_false_imp, beq_eq_false_iff_ne,
        decide_eq_true_eq, decide_eq_false_iff_not]
      omega
    simp only [List.nil_append, List.map_cons, List.cons_append, List.dropWhile_cons, hsp,
      Bool.false_eq_true, if_false]
    rw [if_neg (by omega), if_neg (by omega)]
    simp only [List.map_cons, List.cons_append] at hval
    rw [hval]
    simp only [List.nil_eq, reduceCtorEq, if_false] at h1 h2 ⊢
    exact wrap32_small _ h1 h2
  · have h45 : isspace 45 = false := by decide
    simp only [List.cons_append, List.nil_append, List.dropWhile_cons, h45, Bool.false_eq_true,
      if_false, if_true]
    rw [hval]
    simp only [if_true] at h1 h2 ⊢
    exact wrap32_small _ h1 h2
  · have h43 : isspace 43 = false := by decide
    simp only [List.cons_append, List.nil_append, List.dropWhile_cons, h43, Bool.false_eq_true,
      if_false]
    rw [if_pos trivial, hval]
    have hne45 : ¬ ([43] : List Nat) = [45] := by decide
    simp only [hne45, if_false] at h1 h2 ⊢
    exact wrap32_small _ h1 h2

theorem process_frame_eq (E : Env) (d : E.Det) (f : Frame) (len det_len : Nat)
    (h1 : f.msg_len = Int.ofNat len)
    (h2 : toInt32 (det_json_of E d f len).length = Int.ofNat det_len) :
    process_frame E d f = some (turn_result E d f len det_len) := by
  have h2' : toInt32 (E.det_to_json (E.detect d (E.imdecode (load (E.stale f) f.msg_buf len)))
      (atoi f.seq_buf)).2.length = Int.ofNat det_len := h2
  unfold process_frame
  simp only [h1, h2']
  rfl

theorem process_frame_negative (E : Env) (d : E.Det) (f : Frame) (h : f.msg_len < 0) :
    process_frame E d f = none := by
  unfold process_frame
  cases hm : f.msg_len with
  | ofNat k =>
    rw [hm] at h
    exact absurd h (by simp)
  | negSucc k => rfl

theorem store_length_le (cap : Nat) (old : List Nat) (off : Nat) (bytes : List Nat) :
    (store cap old off bytes).length ≤ cap := by
  unfold store
  rw [List.length_take]
  exact Nat.min_le_left _ _

theorem store_zero_take (cap : Nat) (old bytes : List Nat) (h : bytes.length ≤ cap) :
    (store cap old 0 bytes).take bytes.length = bytes := by
  unfold store
  simp only [List.take_zero, Nat.zero_sub, List.replicate_zero, List.nil_append, Nat.zero_add]
  rw [List.take_take, Nat.min_eq_left h, List.take_append_of_le_length (le_refl _), List.take_length]

theorem store_zero_length (cap : Nat) (old bytes : List Nat) (h : bytes.length ≤ cap) :
    bytes.length ≤ (store cap old 0 bytes).length := by
  have := congrArg List.length (store_zero_take cap old bytes h)
  rw [List.length_take] at this
  omega

theorem store_terminator (cap : Nat) (buf : List Nat) (n : Nat) (hlen : n ≤ buf.length)
    (hn : n < cap) :
    (store cap buf n [0]).take n = buf.take n ∧ (store cap buf n [0])[n]? = some 0 := by
  unfold store
  have hrep : n - buf.length = 0 := by omega
  have hl : (buf.take n).length = n := by rw [List.length_take]; omega
  simp only [hrep, List.replicate_zero, List.append_nil, List.append_assoc]
  refine ⟨?_, ?_⟩
  · rw [List.take_take, Nat.min_eq_left (le_of_lt hn)]
    rw [List.take_append_of_le_length (by omega)]
    rw [List.take_take, Nat.min_self]
  · rw [List.getElem?_take_of_lt hn]
    rw [List.getElem?_append_right (by omega)]
    simp [hl]

theorem turn_result_post (E : Env) (d : E.Det) (f : Frame) (len : Nat)
    (hs : (det_json_of E d f len).length < DET_BUF_LEN)
    (hv : (res_vec_of E d f len).length ≤ MSG_BUF_LEN) :
    (turn_result E d f len (det_json_of E d f len).length).1.det_len
        = ((det_json_of E d f len).length : Int) ∧
      (turn_result E d f len (det_json_of E d f len).length).1.det_buf.take
        (det_json_of E d f len).length = det_json_of E d f len ∧
      (turn_result E d f len (det_json_of E d f len).length).1.det_buf[
        (det_json_of E d f len).length]? = some 0 ∧
      (turn_result E d f len (det_json_of E d f len).length).1.msg_len
        = ((res_vec_of E d f len).length : Int) ∧
      (turn_result E d f len (det_json_of E d f len).length).1.msg_buf.take
        (res_vec_of E d f len).length = res_vec_of E d f len ∧
      (turn_result E d f len (det_json_of E d f len).length).1.seq_buf = f.seq_buf ∧
      (turn_result E d f len (det_json_of E d f len).length).1.seq_len = f.seq_len := by
  have hv' : (res_vec_of E d f len).length ≤ 76800 := hv
  have e2 : toInt32 (res_vec_of E d f len).length = ((res_vec_of E d f len).length : Int) :=
    toInt32_small _ (by omega)
  have hterm := store_terminator DET_BUF_LEN
    (store DET_BUF_LEN f.det_buf 0 (det_json_of E d f len)) (det_json_of E d f len).length
    (store_zero_length _ _ _ (le_of_lt hs)) hs
  unfold turn_result
  refine ⟨rfl, ?_, ?_, e2, store_zero_take _ _ _ hv, rfl, rfl⟩
  · show List.take _ (store DET_BUF_LEN (store DET_BUF_LEN f.det_buf 0
      (List.take (det_json_of E d f len).length (det_json_of E d f len)))
      (det_json_of E d f len).length [0]) = _
    rw [List.take_length, hterm.1]
    exact store_zero_take _ _ _ (le_of_lt hs)
  · show (store DET_BUF_LEN (store DET_BUF_LEN f.det_buf 0
      (List.take (det_json_of E d f len).length (det_json_of E d f len)))
      (det_json_of E d f len).length [0])[(det_json_of E d f len).length]? = _
    rw [List.take_length]
    exact hterm.2

theorem turn_result_writes_inside (E : Env) (d : E.Det) (f : Frame) (len : Nat)
    (hs : (det_json_of E d f len).length < DET_BUF_LEN)
    (hv : (res_vec_of E d f len).length ≤ MSG_BUF_LEN) :
    ∀ w ∈ (turn_result E d f len (det_json_of E d f len).length).2.2.1, w.inside = true := by
  have hs' : (det_json_of E d f len).length < 25600 := hs
  have hv' : (res_vec_of E d f len).length ≤ 76800 := hv
  unfold turn_result
  intro w hw
  simp only [List.mem_cons, List.mem_singleton, List.not_mem_nil, or_false] at hw
  rcases hw with rfl | rfl | rfl <;>
    simp only [Write.inside, Buf.cap, DET_BUF_LEN, MSG_BUF_LEN, Bool.and_eq_true,
      decide_eq_true_eq, Int.ofNat_eq_coe] <;>
    omega

theorem main_body_processes (E : Env) (s : State E) (t : Tagged) (rest : List Tagged)
    (len : Nat)
    (hq : s.unprocessed_frame_queue = t :: rest)
    (hlen : t.frame.msg_len = (len : Int))
    (hs : (det_json_of E s.detector t.frame len).length < DET_BUF_LEN) :
    main_body E s = some
      { s with
        unprocessed_frame_queue := rest
        processed_frame_queue := s.processed_frame_queue ++
          [{ frame := (turn_result E s.detector t.frame len
                (det_json_of E s.detector t.frame len).length).1,
             drew := t.drew, origin := t.origin }]
        detector := (turn_result E s.detector t.frame len
          (det_json_of E s.detector t.frame len).length).2.1
        writes := s.writes ++ (turn_result E s.detector t.frame len
          (det_json_of E s.detector t.frame len).length).2.2.1
        calls := s.calls ++ (turn_result E s.detector t.frame len
          (det_json_of E s.detector t.frame len).length).2.2.2 } := by
  have hs' : (det_json_of E s.detector t.frame len).length < 25600 := hs
  have hp := process_frame_eq E s.detector t.frame len
    (det_json_of E s.detector t.frame len).length hlen (toInt32_small _ (by omega))
  exact main_body_cons E s t rest _ hq hp

theorem sample_arrival (a b : List Nat) :
    (recv_body (sampleEnv a b) (some bytes42)
      (State.init (sampleEnv a b) 5000 0)).unprocessed_frame_queue = [tagged42] := by
  rw [recv_body_pos _ _ _ (by decide)]
  rfl

theorem sample_det_json (a b : List Nat) (d : Nat) (f : Frame) (len : Nat) :
    det_json_of (sampleEnv a b) d f len = a := rfl

theorem sample_res_vec (a b : List Nat) (d : Nat) (f : Frame) (len : Nat) :
    res_vec_of (sampleEnv a b) d f len = b := rfl

/-! ## The claims on the inference loop -/

/-- Claim C3, as stated, fails: when the detector answers 25600 bytes and the
image encoder answers 76800 bytes, the frame pushed onto the processed queue
has `det_len = 25600` and `msg_len = 76800`, outside the bounds, and the
terminator is written at index 25600 of the detection buffer, outside it. -/
theorem frame_bounds_counterexample :
    (recv_body bigEnv (some bytes42) (State.init bigEnv 5000 0)).unprocessed_frame_queue
        = [tagged42] ∧
      tagged42.frame.bounded ∧
      (∃ s' : State bigEnv,
        main_body bigEnv (recv_body bigEnv (some bytes42) (State.init bigEnv 5000 0)) = some s' ∧
        s'.processed_frame_queue.map (fun t => (t.frame.det_len, t.frame.msg_len))
          = [(25600, 76800)] ∧
        ({ buf := .det_buf, off := 25600, len := 1 } : Write) ∈ s'.writes) ∧
      ¬ ((25600 : Int) < (DET_BUF_LEN : Int)) ∧ ¬ ((76800 : Int) < (MSG_BUF_LEN : Int)) ∧
      Write.inside { buf := .det_buf, off := 25600, len := 1 } = false := by
  have hq := sample_arrival (List.replicate 25600 97) (List.replicate 76800 255)
  have hdl : toInt32 (det_json_of bigEnv
      (recv_body bigEnv (some bytes42) (State.init bigEnv 5000 0)).detector tagged42.frame
        0).length = Int.ofNat 25600 := by
    rw [sample_det_json, List.length_replicate]
    exact toInt32_small 25600 (by decide)
  have hp := process_frame_eq bigEnv
    (recv_body bigEnv (some bytes42) (State.init bigEnv 5000 0)).detector tagged42.frame
    0 25600 rfl hdl
  have hm := main_body_cons bigEnv _ tagged42 [] _ hq hp
  have e2 : toInt32 (List.replicate 76800 255).length = 76800 := by
    rw [List.length_replicate]
    exact toInt32_small 76800 (by decide)
  refine ⟨hq, by decide, ⟨_, hm, ?_, ?_⟩, by decide, by decide, by decide⟩
  · have hp0 : (recv_body bigEnv (some bytes42)
        (State.init bigEnv 5000 0)).processed_frame_queue = [] := by
      rw [recv_body_pos _ _ _ (by decide)]
      rfl
    show List.map _ ((recv_body bigEnv (some bytes42)
      (State.init bigEnv 5000 0)).processed_frame_queue ++ _) = _
    rw [hp0]
    unfold turn_result
    simp only [List.nil_append, List.map_cons, List.map_nil, sample_res_vec, e2]
    rfl
  · show _ ∈ (recv_body bigEnv (some bytes42) (State.init bigEnv 5000 0)).writes ++ _
    unfold turn_result
    exact List.mem_append_right _ (List.mem_cons_of_mem _ (List.mem_cons_self _ _))

/-- Claim C3 (amended): when the frame popped from the unprocessed queue is
within the bounds (`len` is its `msg_len`), and the string returned by
`det_to_json` is shorter than `DET_BUF_LEN` and the image encoded again is
shorter than `MSG_BUF_LEN`, the turn runs to its end and the frame pushed onto
the processed queue is within the three bounds and the three writes of the
turn (the copy of `det_len` bytes, the terminator at `det_buf[det_len]`, the
copy into `msg_buf`) stay inside their buffers. -/
theorem frame_length_bounds (E : Env) (s : State E) (t : Tagged) (rest : List Tagged)
    (len : Nat)
    (hq : s.unprocessed_frame_queue = t :: rest)
    (hin : t.frame.bounded)
    (hlen : t.frame.msg_len = (len : Int))
    (hs : (det_json_of E s.detector t.frame len).length < DET_BUF_LEN)
    (hv : (res_vec_of E s.detector t.frame len).length < MSG_BUF_LEN) :
    ∃ (s' : State E) (t' : Tagged) (ws : List Write),
      main_body E s = some s' ∧
      s'.processed_frame_queue = s.processed_frame_queue ++ [t'] ∧
      t'.frame.bounded ∧
      s'.writes = s.writes ++ ws ∧ ws.length = 3 ∧
      ∀ w ∈ ws, w.inside = true := by
  have hm := main_body_processes E s t rest len hq hlen hs
  have hpost := turn_result_post E s.detector t.frame len hs (le_of_lt hv)
  have hw := turn_result_writes_inside E s.detector t.frame len hs (le_of_lt hv)
  refine ⟨_, _, _, hm, rfl, ?_, rfl, ?_, hw⟩
  · obtain ⟨h1, _, _, h4, _, _, h7⟩ := hpost
    refine ⟨?_, ?_, ?_⟩
    · show 0 ≤ (turn_result E s.detector t.frame len
          (det_json_of E s.detector t.frame len).length).1.seq_len ∧
        (turn_result E s.detector t.frame len
          (det_json_of E s.detector t.frame len).length).1.seq_len < (SEQ_BUF_LEN : Int)
      rw [h7]
      exact hin.1
    · show 0 ≤ (turn_result E s.detector t.frame len
          (det_json_of E s.detector t.frame len).length).1.msg_len ∧
        (turn_result E s.detector t.frame len
          (det_json_of E s.detector t.frame len).length).1.msg_len < (MSG_BUF_LEN : Int)
      rw [h4]
      exact ⟨Int.natCast_nonneg _, by exact_mod_cast hv⟩
    · show 0 ≤ (turn_result E s.detector t.frame len
          (det_json_of E s.detector t.frame len).length).1.det_len ∧
        (turn_result E s.detector t.frame len
          (det_json_of E s.detector t.frame len).length).1.det_len < (DET_BUF_LEN : Int)
      rw [h1]
      exact ⟨Int.natCast_nonneg _, by exact_mod_cast hs⟩
  · unfold turn_result
    rfl

theorem frame_length_bounds_witness :
    arrived42.unprocessed_frame_queue = [tagged42] ∧ tagged42.frame.bounded ∧
      tagged42.frame.msg_len = ((0 : Nat) : Int) ∧
      (det_json_of smallEnv arrived42.detector tagged42.frame 0).length < DET_BUF_LEN ∧
      (res_vec_of smallEnv arrived42.detector tagged42.frame 0).length < MSG_BUF_LEN ∧
      ∃ (s' : State smallEnv) (t' : Tagged) (ws : List Write),
        main_body smallEnv arrived42 = some s' ∧
        s'.processed_frame_queue = arrived42.processed_frame_queue ++ [t'] ∧
        t'.frame.bounded ∧
        s'.writes = arrived42.writes ++ ws ∧ ws.length = 3 ∧
        ∀ w ∈ ws, w.inside = true :=
  ⟨sample_arrival _ _, by decide, by decide, by decide, by decide,
   frame_length_bounds smallEnv arrived42 tagged42 [] 0 (sample_arrival _ _)
     (by decide) (by decide) (by decide) (by decide)⟩

theorem seq42 : tagged42.frame.seq_buf = numeral [] [4, 2] ++ 0 :: [] := by
  decide

theorem negative_arrival :
    (recv_body negEnv (some bytes42) (State.init negEnv 5000 0)).unprocessed_frame_queue
      = [taggedNeg] := by
  rw [recv_body_pos _ _ _ (by decide)]
  rfl

/-- Claim C9, as stated, fails, in two ways.  The frame holds the sequence
string `42` and the detector answers two bytes; when the image encoder answers
76801 bytes the frame pushed onto the processed queue has a message buffer of
at most 76800 bytes, which does not hold the 76801 bytes of the image; and
when the frame popped has `msg_len = -1` the turn has no successor state:
nothing is pushed. -/
theorem postcondition_counterexample :
    (recv_body longEnv (some bytes42) (State.init longEnv 5000 0)).unprocessed_frame_queue
        = [tagged42] ∧
      tagged42.frame.seq_buf = numeral [] [4, 2] ++ 0 :: [] ∧
      numeral_value [] [4, 2] = 42 ∧
      (det_reply longEnv 0 tagged42.frame 0 42).2.length < DET_BUF_LEN ∧
      (encoded longEnv 0 tagged42.frame 0 42).length = 76801 ∧
      (∃ s' : State longEnv,
        main_body longEnv (recv_body longEnv (some bytes42) (State.init longEnv 5000 0))
          = some s' ∧
        s'.processed_frame_queue.length = 1 ∧
        ∀ t' ∈ s'.processed_frame_queue,
          t'.frame.msg_buf.take (encoded longEnv 0 tagged42.frame 0 42).length
            ≠ encoded longEnv 0 tagged42.frame 0 42) ∧
      (recv_body negEnv (some bytes42) (State.init negEnv 5000 0)).unprocessed_frame_queue
        = [taggedNeg] ∧
      taggedNeg.frame.seq_buf = numeral [] [4, 2] ++ 0 :: [] ∧
      taggedNeg.frame.msg_len = -1 ∧
      main_body negEnv (recv_body negEnv (some bytes42) (State.init negEnv 5000 0)) = none := by
  have hq := sample_arrival [123, 125] (List.replicate 76801 255)
  have hm := main_body_processes longEnv _ tagged42 [] 0 hq rfl (by decide)
  have henc : encoded longEnv 0 tagged42.frame 0 42 = List.replicate 76801 255 := rfl
  have hp0 : (recv_body longEnv (some bytes42)
      (State.init longEnv 5000 0)).processed_frame_queue = [] := by
    rw [recv_body_pos _ _ _ (by decide)]
    rfl
  refine ⟨hq, seq42, by decide, by decide, ?_, ⟨_, hm, ?_, ?_⟩, negative_arrival, by decide,
    by decide, ?_⟩
  · rw [henc, List.length_replicate]
  · show ((recv_body longEnv (some bytes42)
      (State.init longEnv 5000 0)).processed_frame_queue ++ _).length = 1
    rw [hp0]
    rfl
  · intro t' ht' heq
    change t' ∈ (recv_body longEnv (some bytes42)
      (State.init longEnv 5000 0)).processed_frame_queue ++ _ at ht'
    rw [hp0, List.nil_append, List.mem_singleton] at ht'
    have hlen := congrArg List.length heq
    rw [ht', henc] at hlen
    have key : ∀ l : List Nat, l.length ≤ 76800 → min 76801 l.length ≠ 76801 := by
      intro l hl
      omega
    unfold turn_result at hlen
    simp only [List.length_take, List.length_replicate] at hlen
    exact key _ (store_length_le MSG_BUF_LEN _ 0 _) hlen
  · exact main_body_abort negEnv _ taggedNeg [] negative_arrival
      (process_frame_negative negEnv _ _ (by decide))

/-- Claim C9 (amended): when the frame popped has a `msg_len` between 0 and
`MSG_BUF_LEN`, its sequence buffer holds a decimal numeral (an optional sign
and digits) of an `int` n and its terminator, `det_to_json (n)` returns a
string shorter than `DET_BUF_LEN`, and the image encoded again has at most
`MSG_BUF_LEN` bytes, then the turn runs to its end, one frame leaves the
unprocessed queue and one frame is pushed onto the processed queue; that frame
has `det_len` the length of the string, the string in the first `det_len`
bytes of `det_buf`, a 0 at `det_buf[det_len]`, `msg_len` the length of the
encoded image, those bytes in `msg_buf`, and `seq_buf` and `seq_len` as popped;
the detector was called in the order `detect`, `det_to_json (n)`, `draw`. -/
theorem inference_step_postcondition (E : Env) (s : State E) (t : Tagged)
    (rest : List Tagged) (len : Nat) (sign ds tail : List Nat) (n : Int)
    (hq : s.unprocessed_frame_queue = t :: rest)
    (hlen : t.frame.msg_len = (len : Int)) (hcap : len ≤ MSG_BUF_LEN)
    (hseq : t.frame.seq_buf = numeral sign ds ++ 0 :: tail)
    (hsign : sign = [] ∨ sign = [45] ∨ sign = [43]) (hne : ds ≠ [])
    (hlt : ∀ x ∈ ds, x < 10)
    (hval : numeral_value sign ds = n)
    (hn1 : -2147483648 ≤ n) (hn2 : n < 2147483648)
    (hs : (det_reply E s.detector t.frame len n).2.length < DET_BUF_LEN)
    (hv : (encoded E s.detector t.frame len n).length ≤ MSG_BUF_LEN) :
    ∃ (s' : State E) (t' : Tagged),
      main_body E s = some s' ∧
      s'.unprocessed_frame_queue = rest ∧
      s'.processed_frame_queue = s.processed_frame_queue ++ [t'] ∧
      t'.frame.det_len = ((det_reply E s.detector t.frame len n).2.length : Int) ∧
      t'.frame.det_buf.take (det_reply E s.detector t.frame len n).2.length
        = (det_reply E s.detector t.frame len n).2 ∧
      t'.frame.det_buf[(det_reply E s.detector t.frame len n).2.length]? = some 0 ∧
      t'.frame.msg_len = ((encoded E s.detector t.frame len n).length : Int) ∧
      t'.frame.msg_buf.take (encoded E s.detector t.frame len n).length
        = encoded E s.detector t.frame len n ∧
      t'.frame.seq_buf = t.frame.seq_buf ∧ t'.frame.seq_len = t.frame.seq_len ∧
      s'.calls = s.calls ++ [.detect, .det_to_json n, .draw] ∧
      s'.detector = (drawn_mat E s.detector t.frame len n).1 := by
  have _ := hcap
  have hfs : frame_seq_of t.frame = n := by
    unfold frame_seq_of
    rw [hseq, ← hval]
    exact atoi_numeral sign ds tail hsign hne hlt (by rw [hval]; exact hn1)
      (by rw [hval]; exact hn2)
  have hdj : det_json_of E s.detector t.frame len = (det_reply E s.detector t.frame len n).2 := by
    unfold det_json_of
    rw [hfs]
  have hrv : res_vec_of E s.detector t.frame len = encoded E s.detector t.frame len n := by
    unfold res_vec_of
    rw [hfs]
  have hm := main_body_processes E s t rest len hq hlen (by rw [hdj]; exact hs)
  have hpost := turn_result_post E s.detector t.frame len (by rw [hdj]; exact hs)
    (by rw [hrv]; exact hv)
  rw [hdj, hrv] at hpost
  obtain ⟨h1, h2, h3, h4, h5, h6, h7⟩ := hpost
  rw [hdj] at hm
  refine ⟨_, _, hm, rfl, rfl, h1, h2, h3, h4, h5, h6, h7, ?_, ?_⟩
  · show s.calls ++ (turn_result E s.detector t.frame len
      (det_reply E s.detector t.frame len n).2.length).2.2.2 = _
    unfold turn_result
    rw [hfs]
  · show (turn_result E s.detector t.frame len
      (det_reply E s.detector t.frame len n).2.length).2.1 = _
    unfold turn_result
    rw [hfs]

theorem inference_step_postcondition_witness :
    arrived42.unprocessed_frame_queue = [tagged42] ∧
      tagged42.frame.msg_len = ((0 : Nat) : Int) ∧ 0 ≤ MSG_BUF_LEN ∧
      tagged42.frame.seq_buf = numeral [] [4, 2] ++ 0 :: [] ∧
      numeral_value [] [4, 2] = 42 ∧
      (det_reply smallEnv arrived42.detector tagged42.frame 0 42).2.length < DET_BUF_LEN ∧
      (encoded smallEnv arrived42.detector tagged42.frame 0 42).length ≤ MSG_BUF_LEN ∧
      ∃ (s' : State smallEnv) (t' : Tagged),
        main_body smallEnv arrived42 = some s' ∧
        s'.unprocessed_frame_queue = [] ∧
        s'.processed_frame_queue = arrived42.processed_frame_queue ++ [t'] ∧
        t'.frame.det_len
          = ((det_reply smallEnv arrived42.detector tagged42.frame 0 42).2.length : Int) ∧
        t'.frame.det_buf.take (det_reply smallEnv arrived42.detector tagged42.frame 0 42).2.length
          = (det_reply smallEnv arrived42.detector tagged42.frame 0 42).2 ∧
        t'.frame.det_buf[(det_reply smallEnv arrived42.detector tagged42.frame 0 42).2.length]?
          = some 0 ∧
        t'.frame.msg_len
          = ((encoded smallEnv arrived42.detector tagged42.frame 0 42).length : Int) ∧
        t'.frame.msg_buf.take (encoded smallEnv arrived42.detector tagged42.frame 0 42).length
          = encoded smallEnv arrived42.detector tagged42.frame 0 42 ∧
        t'.frame.seq_buf = tagged42.frame.seq_buf ∧ t'.frame.seq_len = tagged42.frame.seq_len ∧
        s'.calls = arrived42.calls ++ [.detect, .det_to_json 42, .draw] ∧
        s'.detector = (drawn_mat smallEnv arrived42.detector tagged42.frame 0 42).1 :=
  ⟨sample_arrival _ _, by decide, by decide, seq42, by decide, by decide, by decide,
   inference_step_postcondition smallEnv arrived42 tagged42 [] 0 [] [4, 2] [] 42
     (sample_arrival _ _) (by decide) (by decide) seq42 (Or.inl rfl) (by decide) (by decide)
     (by decide) (by decide) (by decide) (by decide) (by decide)⟩

/-! ## The start of `main` -/

/-- Claim C7, as stated, fails: without any argument `main` prints the usage
message and returns 0; with one or two of the three arguments it prints no
usage message, reads `argv` at an index that was not supplied and goes on to
create the sockets, the pool and the threads. -/
theorem usage_counterexample :
    (main_start 1).2 = some 0 ∧
      Action.print_usage ∉ (main_start 2).1 ∧ (main_start 2).2 = none ∧
      (main_start 2).1.any (Action.reads_beyond 2) = true ∧
      (main_start 2).1.any Action.creates = true ∧
      Action.print_usage ∉ (main_start 3).1 ∧ (main_start 3).2 = none ∧
      (main_start 3).1.any (Action.reads_beyond 3) = true ∧
      (main_start 3).1.any Action.creates = true := by
  refine ⟨by decide, by decide, by decide, by decide, by decide, by decide, by decide,
    by decide, by decide⟩

/-- Claim C7 (amended): for every invocation without any argument after the
program name (`argc < 2`), `main` prints the usage message and returns the
exit status 0, without reading `argv[1]`, `argv[2]` or `argv[3]` and without
creating sockets, the frame pool or threads. -/
theorem usage_without_arguments (argc : Int) (h : argc < 2) :
    Action.print_usage ∈ (main_start argc).1 ∧
      (main_start argc).2 = some 0 ∧
      (∀ i : Nat, 1 ≤ i → Action.read_argv i ∉ (main_start argc).1) ∧
      (∀ a ∈ (main_start argc).1, a.creates = false) := by
  unfold main_start
  rw [if_pos h]
  refine ⟨by simp, rfl, ?_, ?_⟩
  · intro i hi hmem
    simp only [List.mem_cons, Action.read_argv.injEq, List.mem_singleton, reduceCtorEq,
      List.not_mem_nil, or_false] at hmem
    omega
  · intro a ha
    simp only [List.mem_cons, List.mem_singleton, List.not_mem_nil, or_false] at ha
    rcases ha with rfl | rfl <;> rfl

theorem usage_without_arguments_witness :
    (1 : Int) < 2 ∧ Action.print_usage ∈ (main_start 1).1 ∧ (main_start 1).2 = some 0 :=
  ⟨by decide, (usage_without_arguments 1 (by decide)).1,
   (usage_without_arguments 1 (by decide)).2.1⟩

/-! ## Shutdown -/

theorem torn_down_after_flag (E : Env) (n : Nat) (d : E.Det) (s : State E)
    (h : Reachable E n d s) : s.torn_down = true → s.exit_flag = true := by
  induction h with
  | init => intro h; cases h
  | recv s incoming _ _ _ ih =>
    unfold recv_iter
    split
    · exact ih
    · rw [(recv_body_flags E incoming s).1, (recv_body_flags E incoming s).2]
      exact ih
  | infer s s' _ _ hstep ih =>
    rcases main_iter_some E s s' hstep with ⟨hf, rfl⟩ | ⟨_, hb⟩
    · intro _; exact hf
    · rw [(main_body_flags E s s' hb).1, (main_body_flags E s s' hb).2]
      exact ih
  | send s _ _ _ ih =>
    unfold send_iter
    split
    · exact ih
    · rw [(send_body_flags E s).1, (send_body_flags E s).2]
      exact ih
  | signal s _ _ => intro _; rfl

/-- Claim C8, as stated, fails: an envelope arrives, the signal sets the flag,
and `main` leaves its loop and tears down while the frame is still in the
unprocessed queue, one frame is missing from the pool, and neither the ingress
nor the egress context has left its loop. -/
theorem shutdown_counterexample :
    Reachable smallEnv 5000 0 interrupted ∧
      interrupted.exit_flag = true ∧ interrupted.torn_down = true ∧
      interrupted.unprocessed_frame_queue = [tagged42] ∧
      interrupted.frame_pool.free = 4999 ∧ interrupted.frame_pool.unit_num = 5000 ∧
      interrupted.recv_running = true ∧ interrupted.send_running = true ∧
      interrupted.sent = [] :=
  ⟨Reachable.infer _ _ (Reachable.signal _ (Reachable.recv _ (some bytes42) Reachable.init rfl rfl)) rfl rfl,
   by decide, by decide, by decide, by decide, by decide, by decide, by decide, by decide⟩

/-- Claim C8 (amended): in every execution `main` destroys the frame pool and
closes the sockets only after the shutdown flag was set; once the flag is set,
the next turn of `main` is the teardown, and it waits for nothing: it leaves
both queues, the pool and the two other contexts as they are at that moment,
whether or not frames are still in flight. -/
theorem teardown_after_flag_without_drain (E : Env) (unit_num : Nat) (d : E.Det) (s : State E)
    (h : Reachable E unit_num d s) :
    (s.torn_down = true → s.exit_flag = true) ∧
      (s.exit_flag = true →
        main_iter E s = some (teardown s) ∧
        (teardown s).torn_down = true ∧
        (teardown s).unprocessed_frame_queue = s.unprocessed_frame_queue ∧
        (teardown s).processed_frame_queue = s.processed_frame_queue ∧
        (teardown s).frame_pool = s.frame_pool ∧
        (teardown s).sent = s.sent ∧
        (teardown s).recv_running = s.recv_running ∧
        (teardown s).send_running = s.send_running) := by
  refine ⟨torn_down_after_flag E unit_num d s h, ?_⟩
  intro hf
  unfold main_iter
  rw [if_pos hf]
  exact ⟨rfl, rfl, rfl, rfl, rfl, rfl, rfl, rfl⟩

theorem teardown_after_flag_without_drain_witness :
    Reachable smallEnv 5000 0 interrupted ∧
      (interrupted.torn_down = true → interrupted.exit_flag = true) :=
  ⟨Reachable.infer _ _ (Reachable.signal _ (Reachable.recv _ (some bytes42) Reachable.init rfl rfl)) rfl rfl,
   (teardown_after_flag_without_drain smallEnv 5000 0 interrupted
      (Reachable.infer _ _ (Reachable.signal _ (Reachable.recv _ (some bytes42) Reachable.init rfl rfl))
        rfl rfl)).1⟩

theorem inferred_reachable : Reachable smallEnv 5000 0 inferred :=
  Reachable.infer _ _ (Reachable.recv _ (some bytes42) Reachable.init rfl rfl) rfl
    (Option.some_get _).symm

theorem pipeline_keeps_arrival_order_witness :
    Reachable smallEnv 5000 0 delivered ∧
      delivered.sent.map Tagged.origin = [{ arrival := 0, payload := bytes42 }] ∧
      ((delivered.sent ++ delivered.processed_frame_queue
          ++ delivered.unprocessed_frame_queue).map Tagged.origin = delivered.accepted ∧
        delivered.accepted.map Envelope.arrival = List.range delivered.accepted.length ∧
        (delivered.sent.map Tagged.origin).Nodup ∧
        delivered.sent.Pairwise (fun a b => a.origin.arrival < b.origin.arrival)) :=
  ⟨Reachable.send _ inferred_reachable (by decide) (by decide),
   by decide,
   pipeline_keeps_arrival_order smallEnv 5000 0 delivered
     (Reachable.send _ inferred_reachable (by decide) (by decide))⟩

end Worker
